import Mathlib

/-!
Verification of the Videoflix backend core: the HLS transcoding pipeline
(video_app/tasks.py), the ingestion trigger and cleanup handler
(video_app/signals.py), and the streaming views (video_app/api/views.py),
shallowly embedded as pure Lean functions over explicit state.

Conventions of the embedding:
- Database persistence (video.save()) is modelled by appending the current
  record snapshot to a trace of saves.
- Filesystem effects of the pipeline are modelled by lists: directories passed
  to os.makedirs, files written, resolution names attempted / fully written.
- subprocess results come from an Env record giving each external tool an exit
  code; exit 0 is success, anything else raises CalledProcessError.
- Python exceptions are an Except value; an error carries the state at the
  point of the raise so that the except handler of process_video_to_hls can
  persist the failure on that state.
-/

namespace Videoflix

/-- Processing status values of the Video model (PROCESSING_STATUS_CHOICES in
video_app/models.py). -/
inductive PStatus where
  | pending
  | processing
  | completed
  | failed
deriving DecidableEq, Repr

/-- Shallow embedding of the Video model fields that the pipeline, streaming
views and cleanup handler read or write. File fields are an Option String
holding the resolved path (original_file) or the stored relative name
(thumbnail); none models an unset field. -/
structure Video where
  id : Nat
  originalFile : Option String
  processing_status : PStatus
  processing_progress : Nat
  processing_error : Option String
  hls_directory : Option String
  duration_seconds : Option Nat
  file_size_mb : Option Nat
  thumbnail : Option String
deriving DecidableEq, Repr

/-- Truthiness of a nullable/blank Django CharField: falsy when None or empty. -/
def strTruthy : Option String → Bool
  | none => false
  | some s => s != ""

/-- One entry of the fixed resolution ladder in process_all_resolutions. -/
structure ResolutionSpec where
  name : String
  height : Nat
  bitrate : String
deriving DecidableEq, Repr

def res360 : ResolutionSpec := { name := "360p", height := 360, bitrate := "800k" }

def res480 : ResolutionSpec := { name := "480p", height := 480, bitrate := "1200k" }

def res720 : ResolutionSpec := { name := "720p", height := 720, bitrate := "2500k" }

def res1080 : ResolutionSpec := { name := "1080p", height := 1080, bitrate := "5000k" }

/-- The fixed resolution ladder of process_all_resolutions (tasks.py). -/
def resolutions : List ResolutionSpec := [res360, res480, res720, res1080]

/-- Names of the ladder entries, in order. -/
def ladderNames : List String := resolutions.map ResolutionSpec.name

/-- Pipeline state: the in-memory record, the trace of persisted snapshots, and
the filesystem effects of the run. -/
structure PipeState where
  video : Video
  saves : List Video
  dirs : List String
  files : List String
  resAttempted : List String
  resWritten : List String
deriving DecidableEq, Repr

/-- Embedding of video.save(): append the current record snapshot to the trace. -/
def save (st : PipeState) : PipeState :=
  { st with saves := st.saves ++ [st.video] }

/-- Replace the in-memory record (a plain field assignment in Python). -/
def setVideo (st : PipeState) (v : Video) : PipeState :=
  { st with video := v }

/-- Outcomes of the external subprocess calls a run makes: exit codes of
ffmpeg per resolution name, of ffprobe, of the thumbnail ffmpeg call, and the
data a successful probe yields. -/
structure Env where
  encodeExit : String → Int
  probeExit : Int
  probeDuration : Nat
  fileSizeMb : Nat
  thumbExit : Int

/-- Python exceptions that the pipeline can raise. -/
inductive PyErr where
  | calledProcessError (cmd : List String) (returncode : Int)
  | valueError (msg : String)
deriving DecidableEq, Repr

/-- Embedding of str(e) for the exceptions above (the CalledProcessError text
is the standard-library message carrying the command and exit status). -/
def strOfErr : PyErr → String
  | .calledProcessError cmd rc =>
      "Command " ++ String.intercalate " " cmd ++
        " returned non-zero exit status " ++ toString rc ++ "."
  | .valueError msg => msg

/-- The ffmpeg command list built by process_resolution. -/
def ffmpegHlsCmd (input_path playlist_path : String) (height : Nat) (bitrate : String) :
    List String :=
  ["ffmpeg", "-i", input_path, "-vf", "scale=-2:" ++ toString height, "-c:v", "libx264",
   "-b:v", bitrate, "-c:a", "aac", "-b:a", "128k", "-hls_time", "10",
   "-hls_list_size", "0", "-f", "hls", playlist_path]

/-- The ffprobe command list built by extract_video_metadata. -/
def ffprobeCmd (input_path : String) : List String :=
  ["ffprobe", "-v", "quiet", "-show_entries", "format=duration", "-of", "csv=p=0", input_path]

/-- The ffmpeg command list built by generate_thumbnail. -/
def ffmpegThumbCmd (input_path thumbnail_path : String) : List String :=
  ["ffmpeg", "-i", input_path, "-ss", "00:00:05", "-vframes", "1", "-q:v", "2", "-y",
   thumbnail_path]

/-- Embedding of setup_video_processing (tasks.py): persist status processing
and progress 0; resolve the source path (raising when no file is attached, as
FieldFile.path does); os.makedirs the output directory with exist_ok=True,
which leaves any existing contents in place; persist hls_directory. -/
def setup_video_processing (st : PipeState) :
    Except (PyErr × PipeState) (PipeState × String × String) :=
  let st := save (setVideo st { st.video with
    processing_status := .processing, processing_progress := 0 })
  match st.video.originalFile with
  | none =>
      .error (.valueError "The original_file attribute has no file associated with it.", st)
  | some input_path =>
      let output_dir := "media/hls/" ++ toString st.video.id ++ "/"
      let st := { st with dirs := st.dirs ++ [output_dir] }
      let st := save (setVideo st { st.video with hls_directory := some output_dir })
      .ok (st, input_path, output_dir)

/-- Embedding of process_resolution (tasks.py): create the per-resolution
directory, invoke ffmpeg; a non-zero exit raises CalledProcessError carrying
the command and exit status, after the directory creation and the attempt. -/
def process_resolution (env : Env) (input_path output_dir : String) (res : ResolutionSpec)
    (st : PipeState) : Except (PyErr × PipeState) PipeState :=
  let res_output_dir := output_dir ++ res.name
  let playlist_path := res_output_dir ++ "/index.m3u8"
  let st := { st with dirs := st.dirs ++ [res_output_dir] }
  let st := { st with resAttempted := st.resAttempted ++ [res.name] }
  if env.encodeExit res.name = 0 then
    .ok { st with files := st.files ++ [playlist_path],
                  resWritten := st.resWritten ++ [res.name] }
  else
    .error (.calledProcessError (ffmpegHlsCmd input_path playlist_path res.height res.bitrate)
              (env.encodeExit res.name), st)

/-- The body of the for-loop of process_all_resolutions over the enumerated
ladder: encode one resolution, then persist progress int((i+1)/total*80). -/
def resolutionLoop (env : Env) (input_path output_dir : String) (total : Nat) :
    List (Nat × ResolutionSpec) → PipeState → Except (PyErr × PipeState) PipeState
  | [], st => .ok st
  | (i, res) :: rest, st =>
    match process_resolution env input_path output_dir res st with
    | .error e => .error e
    | .ok st =>
      let progress := (i + 1) * 80 / total
      let st := save (setVideo st { st.video with processing_progress := progress })
      resolutionLoop env input_path output_dir total rest st

/-- Python enumerate over a list. -/
def enumerate (xs : List ResolutionSpec) : List (Nat × ResolutionSpec) :=
  (List.range xs.length).zip xs

/-- Embedding of process_all_resolutions (tasks.py). -/
def process_all_resolutions (env : Env) (input_path output_dir : String) (st : PipeState) :
    Except (PyErr × PipeState) PipeState :=
  resolutionLoop env input_path output_dir resolutions.length (enumerate resolutions) st

/-- Embedding of extract_video_metadata (tasks.py): a successful probe persists
duration and size together in one save; a non-zero exit raises. -/
def extract_video_metadata (env : Env) (input_path : String) (st : PipeState) :
    Except (PyErr × PipeState) PipeState :=
  if env.probeExit = 0 then
    .ok (save (setVideo st { st.video with
      duration_seconds := some env.probeDuration,
      file_size_mb := some env.fileSizeMb }))
  else
    .error (.calledProcessError (ffprobeCmd input_path) env.probeExit, st)

/-- Embedding of generate_thumbnail (tasks.py): both except branches swallow
the failure, so the function is total; on success the thumbnail field is
persisted. -/
def generate_thumbnail (env : Env) (input_path : String) (st : PipeState) : PipeState :=
  let st := { st with dirs := st.dirs ++ ["media/thumbnails/"] }
  let thumbnail_filename := toString st.video.id ++ "_thumb.jpg"
  let thumbnail_path := "media/thumbnails/" ++ thumbnail_filename
  let _cmd := ffmpegThumbCmd input_path thumbnail_path
  if env.thumbExit = 0 then
    let st := { st with files := st.files ++ [thumbnail_path] }
    save (setVideo st { st.video with thumbnail := some ("thumbnails/" ++ thumbnail_filename) })
  else
    st

/-- Embedding of finalize_video_processing (tasks.py): persist progress 85,
extract metadata, persist progress 95, generate the thumbnail, then persist
status completed with progress 100. -/
def finalize_video_processing (env : Env) (input_path : String) (st : PipeState) :
    Except (PyErr × PipeState) PipeState :=
  let st := save (setVideo st { st.video with processing_progress := 85 })
  match extract_video_metadata env input_path st with
  | .error e => .error e
  | .ok st =>
    let st := save (setVideo st { st.video with processing_progress := 95 })
    let st := generate_thumbnail env input_path st
    .ok (save (setVideo st { st.video with
      processing_status := .completed, processing_progress := 100 }))

/-- Embedding of process_video_to_hls (tasks.py): run the three stages; on any
stage exception the except handler persists status failed with
processing_error = str(e) on the state at the raise point and re-raises e.
The second component is the exception surfaced to the job queue (none on
success): the pipeline performs no internal retry. -/
def process_video_to_hls (env : Env) (st0 : PipeState) : PipeState × Option PyErr :=
  let body : Except (PyErr × PipeState) PipeState :=
    match setup_video_processing st0 with
    | .error e => .error e
    | .ok (st, input_path, output_dir) =>
      match process_all_resolutions env input_path output_dir st with
      | .error e => .error e
      | .ok st => finalize_video_processing env input_path st
  match body with
  | .ok st => (st, none)
  | .error (e, st) =>
      let st := save (setVideo st { st.video with
        processing_status := .failed, processing_error := some (strOfErr e) })
      (st, some e)

/-- Fresh Video record as the ingestion path creates it (model defaults). -/
def freshVideo (i : Nat) (file : Option String) : Video :=
  { id := i, originalFile := file, processing_status := .pending,
    processing_progress := 0, processing_error := none, hls_directory := none,
    duration_seconds := none, file_size_mb := none, thumbnail := none }

/-- Initial pipeline state for a run: record v, no saves yet, files0 the files
already present on disk. -/
def initState (v : Video) (files0 : List String) : PipeState :=
  { video := v, saves := [], dirs := [], files := files0,
    resAttempted := [], resWritten := [] }

/-- One full pipeline run on record v with pre-existing files files0. -/
def runPipeline (env : Env) (v : Video) (files0 : List String) : PipeState × Option PyErr :=
  process_video_to_hls env (initState v files0)

/-- Embedding of the video_post_save signal handler (signals.py): on creation
of a record with a file, queue the processing job; when queueing raises, the
handler marks the record failed with the submission error. queueOk models
whether queue_video_processing succeeded, queueErr the exception text. -/
def video_post_save (created : Bool) (queueOk : Bool) (queueErr : String) (v : Video) : Video :=
  if created && strTruthy v.originalFile then
    if queueOk then v
    else { v with processing_status := .failed,
                  processing_error := some ("Failed to queue processing job: " ++ queueErr) }
  else v

/-! Streaming views (video_app/api/views.py). -/

/-- Filesystem as the views see it: existence plus the contents read from an
existing path (text for manifests, bytes for segments, bytes modelled as a
string of raw octets). -/
structure Fs where
  pathExists : String → Bool
  textContent : String → String
  byteContent : String → String

/-- HTTP responses the views produce: a DRF JSON error body with a detail
message, or a raw HttpResponse with an explicit content type. -/
inductive HttpResponse where
  | json (status : Nat) (detail : String)
  | raw (status : Nat) (contentType : String) (body : String)
deriving DecidableEq, Repr

/-- Status code of a response. -/
def respStatus : HttpResponse → Nat
  | .json s _ => s
  | .raw s _ _ => s

/-- The fixed resolution allow-list of both views. -/
def ALLOWED_RESOLUTIONS : List String := ["360p", "480p", "720p", "1080p"]

/-- Embedding of Video.objects.get(id=movie_id): the record with that id, or
none (DoesNotExist). -/
def findVideo : List Video → Nat → Option Video
  | [], _ => none
  | v :: rest, i => if v.id = i then some v else findVideo rest i

/-- The manifest path the view constructs, from the id and resolution only. -/
def manifestPath (i : Nat) (resolution : String) : String :=
  "media/hls/" ++ toString i ++ "/" ++ resolution ++ "/index.m3u8"

/-- The segment path the view constructs, from id, resolution and name only. -/
def segmentPath (i : Nat) (resolution segment : String) : String :=
  "media/hls/" ++ toString i ++ "/" ++ resolution ++ "/" ++ segment

/-- Embedding of HLSManifestView.get (views.py). -/
def hlsManifestGet (db : List Video) (fs : Fs) (movie_id : Nat) (resolution : String) :
    HttpResponse :=
  match findVideo db movie_id with
  | none => .json 404 "Video not found"
  | some video =>
    if resolution ∈ ALLOWED_RESOLUTIONS then
      if fs.pathExists (manifestPath video.id resolution) then
        .raw 200 "application/vnd.apple.mpegurl" (fs.textContent (manifestPath video.id resolution))
      else .json 404 "Manifest not found"
    else .json 404 "Invalid resolution"

/-- Tail of the index branch of the segment pattern: zero or more digits then
the literal .ts, consuming the whole input. -/
def digitsTs : List Char → Bool
  | '.' :: 't' :: 's' :: [] => true
  | c :: rest => c.isDigit && digitsTs rest
  | [] => false

/-- One or more digits then the literal .ts. -/
def digitsThenTs : List Char → Bool
  | c :: rest => c.isDigit && digitsTs rest
  | [] => false

/-- The first alternative of the segment pattern: index, one or more digits,
then .ts. -/
def indexBranch : List Char → Bool
  | 'i' :: 'n' :: 'd' :: 'e' :: 'x' :: rest => digitsThenTs rest
  | _ => false

/-- The second alternative of the segment pattern: exactly three digits then
.ts. -/
def tripleDigitBranch : List Char → Bool
  | [d1, d2, d3, '.', 't', 's'] => d1.isDigit && d2.isDigit && d3.isDigit
  | _ => false

/-- Body of the pattern (index\d+|\d{3})\.ts of HLSSegmentView.get, applied to
the whole input. -/
def segmentPatternBody (cs : List Char) : Bool :=
  indexBranch cs || tripleDigitBranch cs

/-- Embedding of re.match with the pattern anchored by a caret and a dollar:
the dollar also matches just before a single newline at the end of the input. -/
def reMatchSegment (s : String) : Bool :=
  segmentPatternBody s.data ||
    (match s.data.getLast? with
     | some c => (c == '\x0a') && segmentPatternBody s.data.dropLast
     | none => false)

/-- Segment-name grammar as the spec states it: exactly three decimal digits
followed by .ts; stated from the spec wording, for comparison with the
implemented pattern. -/
def specThreeDigitTs (s : String) : Bool :=
  match s.data with
  | [d1, d2, d3, '.', 't', 's'] => d1.isDigit && d2.isDigit && d3.isDigit
  | _ => false

/-- Embedding of HLSSegmentView.get (views.py). -/
def hlsSegmentGet (db : List Video) (fs : Fs) (movie_id : Nat)
    (resolution segment : String) : HttpResponse :=
  match findVideo db movie_id with
  | none => .json 404 "Video not found"
  | some video =>
    if resolution ∈ ALLOWED_RESOLUTIONS then
      if reMatchSegment segment then
        if fs.pathExists (segmentPath video.id resolution segment) then
          .raw 200 "video/MP2T" (fs.byteContent (segmentPath video.id resolution segment))
        else .json 404 "Segment not found"
      else .json 404 "Invalid segment name"
    else .json 404 "Invalid resolution"

/-! Cleanup handler (signals.py). -/

/-- Filesystem as the cleanup handler sees it: existence checks, plus whether
the removal call for a given path raises. -/
structure DiskState where
  isFile : String → Bool
  pathExists : String → Bool
  removeRaises : String → Bool
  rmtreeRaises : String → Bool

/-- The three cleanup phases, in the order the handler runs them. -/
inductive CleanPhase where
  | original
  | hlsDir
  | thumbnail
deriving DecidableEq, Repr

/-- Outcome of one cleanup phase: the resource was removed, the existence
check was false so the removal was skipped, the removal raised and the
exception was caught and logged, or the record field was falsy so the phase
body did nothing. -/
inductive CleanOutcome where
  | removed (path : String)
  | alreadyMissing (path : String)
  | failedLogged (path : String)
  | fieldUnset
deriving DecidableEq, Repr

/-- One try/except block around if os.path.isfile(path): os.remove(path). -/
def removeFileAttempt (d : DiskState) (path : String) : CleanOutcome :=
  if d.isFile path then
    (if d.removeRaises path then .failedLogged path else .removed path)
  else .alreadyMissing path

/-- One try/except block around if os.path.exists(path): shutil.rmtree(path). -/
def rmtreeAttempt (d : DiskState) (path : String) : CleanOutcome :=
  if d.pathExists path then
    (if d.rmtreeRaises path then .failedLogged path else .removed path)
  else .alreadyMissing path

/-- FieldFile.path of a stored relative name under the media root. -/
def mediaPath (rel : String) : String := "media/" ++ rel

/-- Embedding of auto_delete_file_on_delete (signals.py): three independent
try/except blocks, one per resource; every phase runs whatever the earlier
outcomes were, no exception escapes (the function is total by construction),
and when hls_directory is falsy the handler falls back to the standard path
pattern media/hls/id/. Returns the per-phase log, in execution order. -/
def auto_delete_file_on_delete (d : DiskState) (v : Video) :
    List (CleanPhase × CleanOutcome) :=
  let step1 :=
    match v.originalFile with
    | some p => if p != "" then removeFileAttempt d p else .fieldUnset
    | none => .fieldUnset
  let step2 :=
    if strTruthy v.hls_directory then
      match v.hls_directory with
      | some dir => rmtreeAttempt d dir
      | none => .fieldUnset
    else
      rmtreeAttempt d ("media/hls/" ++ toString v.id ++ "/")
  let step3 :=
    if strTruthy v.thumbnail then
      match v.thumbnail with
      | some t => removeFileAttempt d (mediaPath t)
      | none => .fieldUnset
    else .fieldUnset
  [(.original, step1), (.hlsDir, step2), (.thumbnail, step3)]

/-! Helper definitions for the statements below. -/

/-- Sequence of values a trace passes through: consecutive duplicates removed. -/
def dedupConsec : List Nat → List Nat
  | [] => []
  | [a] => [a]
  | a :: b :: rest => if a = b then dedupConsec (b :: rest) else a :: dedupConsec (b :: rest)

/-- Rank of a status along the lifecycle (terminal states rank highest). -/
def statusRank : PStatus → Nat
  | .pending => 0
  | .processing => 1
  | .completed => 2
  | .failed => 2

/-- Status transitions the claim allows: the two chains
pending-processing-completed and pending-processing-failed, plus staying put. -/
def claimedEdge : PStatus → PStatus → Bool
  | .pending, .processing => true
  | .processing, .completed => true
  | .processing, .failed => true
  | a, b => a == b

/-- Status transitions the code actually makes: the claimed ones plus the
direct pending-to-failed edge of the ingestion trigger on queue failure. -/
def amendedEdge : PStatus → PStatus → Bool
  | .pending, .failed => true
  | a, b => claimedEdge a b

/-- Every adjacent pair of the list satisfies the edge relation. -/
def chainOk (edge : PStatus → PStatus → Bool) : List PStatus → Bool
  | a :: b :: rest => edge a b && chainOk edge (b :: rest)
  | _ => true

/-- Files on disk after setup, for exhibiting the output-directory contents. -/
def setupFilesAfter (st0 : PipeState) : List String :=
  match setup_video_processing st0 with
  | .ok (st, _, _) => st.files
  | .error (_, st) => st.files

/-- Whether setup completed without raising. -/
def setupOk (st0 : PipeState) : Bool :=
  match setup_video_processing st0 with
  | .ok _ => true
  | .error _ => false

/-- Rewrite of every record with an arbitrary hls_directory field, leaving the
other fields alone. -/
def setHls (g : Video → Option String) (db : List Video) : List Video :=
  db.map (fun v => { v with hls_directory := g v })

/-- Environment in which every external tool succeeds. -/
def envAllOk : Env :=
  { encodeExit := fun _ => 0, probeExit := 0, probeDuration := 12,
    fileSizeMb := 7, thumbExit := 0 }

/-- Demo record used by the concrete witnesses. -/
def demoVideo : Video := freshVideo 1 (some "media/videos/original/demo.mp4")

/-- Filesystem with nothing on it. -/
def emptyFs : Fs :=
  { pathExists := fun _ => false, textContent := fun _ => "",
    byteContent := fun _ => "" }

/-- Environment in which the encoder fails on the 480p rung and every other
tool succeeds. -/
def envFail480 : Env :=
  { encodeExit := fun s => if s == "480p" then 1 else 0, probeExit := 0,
    probeDuration := 12, fileSizeMb := 7, thumbExit := 0 }

/-- Environment in which only the thumbnail ffmpeg call fails. -/
def envThumbFail : Env :=
  { encodeExit := fun _ => 0, probeExit := 0, probeDuration := 12,
    fileSizeMb := 7, thumbExit := 1 }

/-- Disk on which every resource exists and every removal raises. -/
def allRaiseDisk : DiskState :=
  { isFile := fun _ => true, pathExists := fun _ => true,
    removeRaises := fun _ => true, rmtreeRaises := fun _ => true }

/-- Disk on which nothing exists. -/
def allMissingDisk : DiskState :=
  { isFile := fun _ => false, pathExists := fun _ => false,
    removeRaises := fun _ => false, rmtreeRaises := fun _ => false }

/-- Filesystem on which every path exists, with fixed contents. -/
def fullFs : Fs :=
  { pathExists := fun _ => true, textContent := fun _ => "#EXTM3U",
    byteContent := fun _ => "binary" }

/-! Theorems. -/

/-- C1: on the fixed 4-entry ladder, a run in which every stage succeeds
persists the snapshot progress values 0, 0, 20, 40, 60, 80, 85, 85, 95, 95,
100 (setup, metadata and thumbnail each save the record once more at an
unchanged progress value), so the sequence of values the persisted record
passes through is exactly 0, 20, 40, 60, 80, 85, 95, 100; the value persisted
after the i-th completed resolution is floor(i / 4 * 80), and the final state
is completed at progress 100 with no exception surfaced. -/
theorem c1_success_progress_trace (env : Env) (v : Video) (p : String) (files0 : List String)
    (hfile : v.originalFile = some p)
    (h360 : env.encodeExit "360p" = 0) (h480 : env.encodeExit "480p" = 0)
    (h720 : env.encodeExit "720p" = 0) (h1080 : env.encodeExit "1080p" = 0)
    (hprobe : env.probeExit = 0) (hthumb : env.thumbExit = 0) :
    (runPipeline env v files0).1.saves.map Video.processing_progress
        = [0, 0, 20, 40, 60, 80, 85, 85, 95, 95, 100] ∧
    dedupConsec ((runPipeline env v files0).1.saves.map Video.processing_progress)
        = [0, 20, 40, 60, 80, 85, 95, 100] ∧
    (∀ i, 1 ≤ i → i ≤ 4 →
      ((runPipeline env v files0).1.saves.map Video.processing_progress).get? (i + 1)
        = some (i * 80 / 4)) ∧
    (runPipeline env v files0).2 = none ∧
    (runPipeline env v files0).1.video.processing_status = .completed ∧
    (runPipeline env v files0).1.video.processing_progress = 100 := by
  have key : (runPipeline env v files0).1.saves.map Video.processing_progress
      = [0, 0, 20, 40, 60, 80, 85, 85, 95, 95, 100] := by
    simp [runPipeline, process_video_to_hls, setup_video_processing,
      process_all_resolutions, enumerate, resolutions, res360, res480, res720, res1080,
      resolutionLoop, process_resolution, finalize_video_processing,
      extract_video_metadata, generate_thumbnail, save, setVideo, initState,
      hfile, h360, h480, h720, h1080, hprobe, hthumb]
  refine ⟨key, ?_, ?_, ?_, ?_, ?_⟩
  · rw [key]; rfl
  · intro i h1 h2
    rw [key]
    interval_cases i <;> rfl
  all_goals
    simp [runPipeline, process_video_to_hls, setup_video_processing,
      process_all_resolutions, enumerate, resolutions, res360, res480, res720, res1080,
      resolutionLoop, process_resolution, finalize_video_processing,
      extract_video_metadata, generate_thumbnail, save, setVideo, initState,
      hfile, h360, h480, h720, h1080, hprobe, hthumb]

/-- Witness for C1 at a concrete all-success environment and record. -/
theorem c1_success_progress_trace_w :
    (runPipeline envAllOk demoVideo []).1.saves.map Video.processing_progress
        = [0, 0, 20, 40, 60, 80, 85, 85, 95, 95, 100] ∧
    dedupConsec ((runPipeline envAllOk demoVideo []).1.saves.map Video.processing_progress)
        = [0, 20, 40, 60, 80, 85, 95, 100] ∧
    (∀ i, 1 ≤ i → i ≤ 4 →
      ((runPipeline envAllOk demoVideo []).1.saves.map Video.processing_progress).get? (i + 1)
        = some (i * 80 / 4)) ∧
    (runPipeline envAllOk demoVideo []).2 = none ∧
    (runPipeline envAllOk demoVideo []).1.video.processing_status = .completed ∧
    (runPipeline envAllOk demoVideo []).1.video.processing_progress = 100 :=
  c1_success_progress_trace envAllOk demoVideo "media/videos/original/demo.mp4" []
    rfl rfl rfl rfl rfl rfl rfl

/-- Helper lemma: the str text of a CalledProcessError is never empty. -/
theorem strOfErr_cpe_ne (cmd : List String) (rc : Int) :
    strOfErr (.calledProcessError cmd rc) ≠ "" := by
  intro h
  have h2 := congrArg String.length h
  simp [strOfErr, String.length_append] at h2
  obtain ⟨⟨⟨⟨hA, _⟩, _⟩, _⟩, _⟩ := h2
  revert hA
  decide

/-- C2: when the encoder fails on the k-th ladder rung (0-based), the run ends
failed with a non-empty processing_error, exactly the first k+1 rungs were
attempted and exactly the first k fully written, no later rung is attempted or
present on disk, no rung is attempted twice (no internal retry), and the
CalledProcessError is re-raised to the job-queue layer with its text persisted
as processing_error. -/
theorem c2_encoder_failure_aborts (env : Env) (v : Video) (p : String) (files0 : List String)
    (k : Nat) (hk : k < 4)
    (hfile : v.originalFile = some p)
    (hpre : ∀ j, j < k → env.encodeExit (ladderNames.getD j "") = 0)
    (hfail : env.encodeExit (ladderNames.getD k "") ≠ 0) :
    (runPipeline env v files0).1.video.processing_status = .failed ∧
    (∃ m, (runPipeline env v files0).1.video.processing_error = some m ∧ m ≠ "") ∧
    (runPipeline env v files0).1.resAttempted = ladderNames.take (k + 1) ∧
    (runPipeline env v files0).1.resWritten = ladderNames.take k ∧
    (∀ j, k < j → j < 4 →
       ladderNames.getD j "" ∉ (runPipeline env v files0).1.resAttempted ∧
       ladderNames.getD j "" ∉ (runPipeline env v files0).1.resWritten) ∧
    List.Nodup ((runPipeline env v files0).1.resAttempted) ∧
    (∃ cmd rc, (runPipeline env v files0).2 = some (.calledProcessError cmd rc) ∧ rc ≠ 0 ∧
       (runPipeline env v files0).1.video.processing_error
         = some (strOfErr (.calledProcessError cmd rc))) := by
  interval_cases k
  · simp only [ladderNames, resolutions, res360, res480, res720, res1080] at hfail
    simp_all [runPipeline, process_video_to_hls, setup_video_processing,
      process_all_resolutions, enumerate, resolutions, res360, res480, res720, res1080,
      resolutionLoop, process_resolution, finalize_video_processing,
      extract_video_metadata, generate_thumbnail, save, setVideo, initState,
      ladderNames, strOfErr_cpe_ne]
    constructor
    · intro j h1 h2
      interval_cases j <;> simp
    · exact ⟨_, _, ⟨rfl, rfl⟩, hfail, rfl⟩
  · have e0 := hpre 0 (by norm_num)
    simp only [ladderNames, resolutions, res360, res480, res720, res1080] at hfail e0
    simp_all [runPipeline, process_video_to_hls, setup_video_processing,
      process_all_resolutions, enumerate, resolutions, res360, res480, res720, res1080,
      resolutionLoop, process_resolution, finalize_video_processing,
      extract_video_metadata, generate_thumbnail, save, setVideo, initState,
      ladderNames, strOfErr_cpe_ne]
    constructor
    · intro j h1 h2
      interval_cases j <;> simp
    · exact ⟨_, _, ⟨rfl, rfl⟩, hfail, rfl⟩
  · have e0 := hpre 0 (by norm_num)
    have e1 := hpre 1 (by norm_num)
    simp only [ladderNames, resolutions, res360, res480, res720, res1080] at hfail e0 e1
    simp_all [runPipeline, process_video_to_hls, setup_video_processing,
      process_all_resolutions, enumerate, resolutions, res360, res480, res720, res1080,
      resolutionLoop, process_resolution, finalize_video_processing,
      extract_video_metadata, generate_thumbnail, save, setVideo, initState,
      ladderNames, strOfErr_cpe_ne]
    constructor
    · intro j h1 h2
      interval_cases j <;> simp
    · exact ⟨_, _, ⟨rfl, rfl⟩, hfail, rfl⟩
  · have e0 := hpre 0 (by norm_num)
    have e1 := hpre 1 (by norm_num)
    have e2 := hpre 2 (by norm_num)
    simp only [ladderNames, resolutions, res360, res480, res720, res1080] at hfail e0 e1 e2
    simp_all [runPipeline, process_video_to_hls, setup_video_processing,
      process_all_resolutions, enumerate, resolutions, res360, res480, res720, res1080,
      resolutionLoop, process_resolution, finalize_video_processing,
      extract_video_metadata, generate_thumbnail, save, setVideo, initState,
      ladderNames, strOfErr_cpe_ne]
    constructor
    · intro j h1
      omega
    · exact ⟨_, _, ⟨rfl, rfl⟩, hfail, rfl⟩

/-- Witness for C2: the encoder fails on the second rung (480p) of a concrete
run. -/
theorem c2_encoder_failure_aborts_w :
    (runPipeline envFail480 demoVideo []).1.video.processing_status = .failed ∧
    (∃ m, (runPipeline envFail480 demoVideo []).1.video.processing_error = some m ∧ m ≠ "") ∧
    (runPipeline envFail480 demoVideo []).1.resAttempted = ladderNames.take 2 ∧
    (runPipeline envFail480 demoVideo []).1.resWritten = ladderNames.take 1 ∧
    (∀ j, 1 < j → j < 4 →
       ladderNames.getD j "" ∉ (runPipeline envFail480 demoVideo []).1.resAttempted ∧
       ladderNames.getD j "" ∉ (runPipeline envFail480 demoVideo []).1.resWritten) ∧
    List.Nodup ((runPipeline envFail480 demoVideo []).1.resAttempted) ∧
    (∃ cmd rc, (runPipeline envFail480 demoVideo []).2 = some (.calledProcessError cmd rc) ∧
       rc ≠ 0 ∧
       (runPipeline envFail480 demoVideo []).1.video.processing_error
         = some (strOfErr (.calledProcessError cmd rc))) :=
  c2_encoder_failure_aborts envFail480 demoVideo "media/videos/original/demo.mp4" [] 1
    (by norm_num) rfl (fun j hj => by interval_cases j; rfl) (by decide)

/-- Helper lemma: every status may stay where it is. -/
theorem amendedEdge_refl (a : PStatus) : amendedEdge a a = true := by
  cases a <;> rfl

/-- C3 counterexample: on a queue-submission failure the ingestion trigger
moves a pending record directly to failed, a transition outside the two chains
the claim allows (it skips processing). -/
theorem c3_counterexample :
    demoVideo.processing_status = .pending ∧
    (video_post_save true false "Redis connection refused" demoVideo).processing_status
      = .failed ∧
    claimedEdge .pending .failed = false :=
  ⟨rfl, rfl, rfl⟩

/-- C3 amended: every status write of the ingestion trigger and of a pipeline
run on a pending record moves along pending-processing-completed,
pending-processing-failed, or the direct pending-failed edge the trigger takes
on queue failure; the rank of a status never decreases along any allowed edge,
so the status never reverses. The streaming views and the cleanup handler are
embedded as functions that return only a response or a cleanup log, so they
write no record field at all. -/
theorem c3_amended_status_transitions :
    (∀ created queueOk err v, v.processing_status = .pending →
       chainOk amendedEdge
         [v.processing_status, (video_post_save created queueOk err v).processing_status] = true) ∧
    (∀ env v files0, v.processing_status = .pending →
       chainOk amendedEdge (v.processing_status ::
         ((runPipeline env v files0).1.saves.map Video.processing_status)) = true) ∧
    (∀ a b, amendedEdge a b = true → statusRank a ≤ statusRank b) := by
  refine ⟨?_, ?_, ?_⟩
  · intro created queueOk err v hv
    by_cases h1 : created && strTruthy v.originalFile <;>
      by_cases h2 : queueOk <;>
        simp [video_post_save, h1, h2, chainOk, amendedEdge, claimedEdge, hv, amendedEdge_refl]
  · intro env v files0 hv
    rcases hf : v.originalFile with _ | p
    · simp [runPipeline, process_video_to_hls, setup_video_processing, save, setVideo,
        initState, hf, hv, chainOk, amendedEdge, claimedEdge]
    · by_cases h360 : env.encodeExit "360p" = 0 <;>
      by_cases h480 : env.encodeExit "480p" = 0 <;>
      by_cases h720 : env.encodeExit "720p" = 0 <;>
      by_cases h1080 : env.encodeExit "1080p" = 0 <;>
      by_cases hpr : env.probeExit = 0 <;>
      by_cases hth : env.thumbExit = 0 <;>
      simp [runPipeline, process_video_to_hls, setup_video_processing,
        process_all_resolutions, enumerate, resolutions, res360, res480, res720, res1080,
        resolutionLoop, process_resolution, finalize_video_processing,
        extract_video_metadata, generate_thumbnail, save, setVideo, initState,
        hf, hv, h360, h480, h720, h1080, hpr, hth, chainOk, amendedEdge, claimedEdge]
  · intro a b
    cases a <;> cases b <;> simp [amendedEdge, claimedEdge, statusRank]

/-- Witness for C3 at a concrete successful run and a concrete queue failure. -/
theorem c3_amended_status_transitions_w :
    chainOk amendedEdge (demoVideo.processing_status ::
      ((runPipeline envAllOk demoVideo []).1.saves.map Video.processing_status)) = true ∧
    chainOk amendedEdge [demoVideo.processing_status,
      (video_post_save true false "Redis down" demoVideo).processing_status] = true :=
  ⟨c3_amended_status_transitions.2.1 envAllOk demoVideo [] rfl,
   c3_amended_status_transitions.1 true false "Redis down" demoVideo rfl⟩

/-- Helper lemma: the grammar stated by the spec coincides with the
three-digit alternative of the implemented pattern. -/
theorem spec_eq_triple (s : String) : specThreeDigitTs s = tripleDigitBranch s.data := rfl

/-- C4 counterexample: the implemented pattern (index\d+|\d{3})\.ts also
accepts index1.ts, which is not three digits followed by .ts; on an existing
video with an allowed resolution the view then proceeds to the filesystem
check and answers Segment not found rather than Invalid segment name. A name
such as 1.ts is rejected as the claim says. -/
theorem c4_counterexample :
    reMatchSegment "index1.ts" = true ∧
    specThreeDigitTs "index1.ts" = false ∧
    hlsSegmentGet [demoVideo] emptyFs 1 "720p" "index1.ts" = .json 404 "Segment not found" ∧
    hlsSegmentGet [demoVideo] emptyFs 1 "720p" "1.ts" = .json 404 "Invalid segment name" :=
  ⟨rfl, rfl, rfl, rfl⟩

/-- C4 amended: for an existing video and allowed resolution, the segment name
is accepted if and only if it matches (index\d+|\d{3})\.ts (with a single
trailing newline also tolerated by the end anchor); every rejected name is
answered 404 Invalid segment name identically for every filesystem state, so
no filesystem lookup takes place; every accepted name proceeds to the
filesystem check on the id-derived path; and every name of the spec's
three-digit form is accepted. -/
theorem c4_amended_segment_validation (db : List Video) (i : Nat) (res seg : String)
    (v : Video) (hv : findVideo db i = some v) (hres : res ∈ ALLOWED_RESOLUTIONS) :
    (reMatchSegment seg = false →
       ∀ fs, hlsSegmentGet db fs i res seg = .json 404 "Invalid segment name") ∧
    (reMatchSegment seg = true → ∀ fs,
       hlsSegmentGet db fs i res seg =
         (if fs.pathExists (segmentPath v.id res seg) then
            .raw 200 "video/MP2T" (fs.byteContent (segmentPath v.id res seg))
          else .json 404 "Segment not found")) ∧
    (∀ s, specThreeDigitTs s = true → reMatchSegment s = true) := by
  refine ⟨?_, ?_, ?_⟩
  · intro h fs
    simp [hlsSegmentGet, hv, hres, h]
  · intro h fs
    by_cases hex : fs.pathExists (segmentPath v.id res seg) <;>
      simp [hlsSegmentGet, hv, hres, h, hex]
  · intro s h
    rw [spec_eq_triple] at h
    simp [reMatchSegment, segmentPatternBody, h]

/-- Witness for C4: a concrete accepted three-digit segment name served from
a disk on which the file exists. -/
theorem c4_amended_segment_validation_w :
    hlsSegmentGet [demoVideo] fullFs 1 "720p" "000.ts" = .raw 200 "video/MP2T" "binary" := by
  have h := (c4_amended_segment_validation [demoVideo] 1 "720p" "000.ts" demoVideo rfl
    (by decide)).2.1 rfl fullFs
  simpa [fullFs, segmentPath] using h

/-- C5: the manifest view validates in the order record existence, resolution
allow-list membership, manifest file existence, answering the three distinct
404 details; when all pass it returns 200 with the HLS playlist content type
and the file contents read from the id-derived path; every response is a 200
or a 404, never a 5xx. -/
theorem c5_manifest_validation_order (db : List Video) (fs : Fs) (i : Nat) (res : String) :
    (findVideo db i = none → hlsManifestGet db fs i res = .json 404 "Video not found") ∧
    (∀ v, findVideo db i = some v → res ∉ ALLOWED_RESOLUTIONS →
       hlsManifestGet db fs i res = .json 404 "Invalid resolution") ∧
    (∀ v, findVideo db i = some v → res ∈ ALLOWED_RESOLUTIONS →
       fs.pathExists (manifestPath v.id res) = false →
       hlsManifestGet db fs i res = .json 404 "Manifest not found") ∧
    (∀ v, findVideo db i = some v → res ∈ ALLOWED_RESOLUTIONS →
       fs.pathExists (manifestPath v.id res) = true →
       hlsManifestGet db fs i res
         = .raw 200 "application/vnd.apple.mpegurl" (fs.textContent (manifestPath v.id res))) ∧
    (respStatus (hlsManifestGet db fs i res) = 200 ∨
     respStatus (hlsManifestGet db fs i res) = 404) := by
  refine ⟨?_, ?_, ?_, ?_, ?_⟩
  · intro h; simp [hlsManifestGet, h]
  · intro v h hres; simp [hlsManifestGet, h, hres]
  · intro v h hres hex; simp [hlsManifestGet, h, hres, hex]
  · intro v h hres hex; simp [hlsManifestGet, h, hres, hex]
  · rcases h : findVideo db i with _ | v
    · simp [hlsManifestGet, h, respStatus]
    · by_cases hres : res ∈ ALLOWED_RESOLUTIONS <;>
        by_cases hex : fs.pathExists (manifestPath v.id res) <;>
          simp [hlsManifestGet, h, hres, hex, respStatus]

/-- Witness for C5: the four concrete outcomes of the spec's examples. -/
theorem c5_manifest_validation_order_w :
    hlsManifestGet [] emptyFs 99999 "720p" = .json 404 "Video not found" ∧
    hlsManifestGet [demoVideo] emptyFs 1 "4k" = .json 404 "Invalid resolution" ∧
    hlsManifestGet [demoVideo] emptyFs 1 "720p" = .json 404 "Manifest not found" ∧
    hlsManifestGet [demoVideo] fullFs 1 "720p"
      = .raw 200 "application/vnd.apple.mpegurl" "#EXTM3U" := by
  refine ⟨?_, ?_, ?_, ?_⟩
  · exact (c5_manifest_validation_order [] emptyFs 99999 "720p").1 rfl
  · exact (c5_manifest_validation_order [demoVideo] emptyFs 1 "4k").2.1 demoVideo rfl (by decide)
  · exact (c5_manifest_validation_order [demoVideo] emptyFs 1 "720p").2.2.1 demoVideo rfl
      (by decide) rfl
  · exact (c5_manifest_validation_order [demoVideo] fullFs 1 "720p").2.2.2.1 demoVideo rfl
      (by decide) rfl

/-- C6: a run in which every essential stage succeeds but the thumbnail ffmpeg
call fails still finishes completed at progress 100 with no exception surfaced
to the job queue, and the thumbnail field is simply left absent: the failure
is swallowed inside generate_thumbnail. -/
theorem c6_thumbnail_failure_swallowed (env : Env) (v : Video) (p : String) (files0 : List String)
    (hfile : v.originalFile = some p) (hthumbnone : v.thumbnail = none)
    (h360 : env.encodeExit "360p" = 0) (h480 : env.encodeExit "480p" = 0)
    (h720 : env.encodeExit "720p" = 0) (h1080 : env.encodeExit "1080p" = 0)
    (hprobe : env.probeExit = 0) (hth : env.thumbExit ≠ 0) :
    (runPipeline env v files0).2 = none ∧
    (runPipeline env v files0).1.video.processing_status = .completed ∧
    (runPipeline env v files0).1.video.processing_progress = 100 ∧
    (runPipeline env v files0).1.video.thumbnail = none := by
  simp [runPipeline, process_video_to_hls, setup_video_processing,
    process_all_resolutions, enumerate, resolutions, res360, res480, res720, res1080,
    resolutionLoop, process_resolution, finalize_video_processing,
    extract_video_metadata, generate_thumbnail, save, setVideo, initState,
    hfile, hthumbnone, h360, h480, h720, h1080, hprobe, hth]

/-- Witness for C6 at a concrete environment where only the thumbnail fails. -/
theorem c6_thumbnail_failure_swallowed_w :
    (runPipeline envThumbFail demoVideo []).2 = none ∧
    (runPipeline envThumbFail demoVideo []).1.video.processing_status = .completed ∧
    (runPipeline envThumbFail demoVideo []).1.video.processing_progress = 100 ∧
    (runPipeline envThumbFail demoVideo []).1.video.thumbnail = none :=
  c6_thumbnail_failure_swallowed envThumbFail demoVideo "media/videos/original/demo.mp4" []
    rfl rfl rfl rfl rfl rfl rfl (by decide)

/-- C7: the cleanup handler runs its three phases, in order, on every record
and disk; on a disk where every resource exists and every removal raises,
each of the three removals is still attempted and each failure is merely
logged; on a disk where nothing exists each resource is independently skipped;
the handler is a total function, so no outcome raises out of it or blocks
record deletion. -/
theorem c7_cleanup_runs_all_phases (d : DiskState) (v : Video) :
    (auto_delete_file_on_delete d v).map Prod.fst
      = [CleanPhase.original, CleanPhase.hlsDir, CleanPhase.thumbnail] ∧
    (∀ p dir t, p ≠ "" → dir ≠ "" → t ≠ "" →
       auto_delete_file_on_delete allRaiseDisk
         { v with originalFile := some p, hls_directory := some dir, thumbnail := some t }
         = [(.original, .failedLogged p), (.hlsDir, .failedLogged dir),
            (.thumbnail, .failedLogged (mediaPath t))]) ∧
    (∀ p dir t, p ≠ "" → dir ≠ "" → t ≠ "" →
       auto_delete_file_on_delete allMissingDisk
         { v with originalFile := some p, hls_directory := some dir, thumbnail := some t }
         = [(.original, .alreadyMissing p), (.hlsDir, .alreadyMissing dir),
            (.thumbnail, .alreadyMissing (mediaPath t))]) := by
  refine ⟨rfl, ?_, ?_⟩
  · intro p dir t hp hdir ht
    simp [auto_delete_file_on_delete, removeFileAttempt, rmtreeAttempt, allRaiseDisk,
      strTruthy, hp, hdir, ht]
  · intro p dir t hp hdir ht
    simp [auto_delete_file_on_delete, removeFileAttempt, rmtreeAttempt, allMissingDisk,
      strTruthy, hp, hdir, ht]

/-- Witness for C7: all three removals fail on a concrete record, and all
three are attempted and logged. -/
theorem c7_cleanup_runs_all_phases_w :
    auto_delete_file_on_delete allRaiseDisk
      { demoVideo with
          originalFile := some "a.mp4"
          hls_directory := some "media/hls/1/"
          thumbnail := some "thumbnails/1_thumb.jpg" }
      = [(.original, .failedLogged "a.mp4"), (.hlsDir, .failedLogged "media/hls/1/"),
         (.thumbnail, .failedLogged (mediaPath "thumbnails/1_thumb.jpg"))] :=
  (c7_cleanup_runs_all_phases allRaiseDisk demoVideo).2.1
    "a.mp4" "media/hls/1/" "thumbnails/1_thumb.jpg" (by decide) (by decide) (by decide)

/-- C8 counterexample: setup succeeds on an output directory that already
holds a stale file and leaves that file in place: os.makedirs with
exist_ok=True creates the directory if missing but never clears pre-existing
contents, so the clearing the claim states does not happen. -/
theorem c8_counterexample :
    setupFilesAfter (initState (freshVideo 1 (some "media/videos/original/demo.mp4"))
        ["media/hls/1/stale.ts"]) = ["media/hls/1/stale.ts"] ∧
    setupOk (initState (freshVideo 1 (some "media/videos/original/demo.mp4"))
        ["media/hls/1/stale.ts"]) = true :=
  ⟨rfl, rfl⟩

/-- C8 amended: the setup stage resolves the source path, creates the output
directory media/hls/id/ (leaving any pre-existing contents in place), persists
hls_directory, persists status processing and progress 0, all before any
resolution is attempted (the returned state has an empty attempt list, and the
pipeline feeds exactly this state to the resolution loop). -/
theorem c8_amended_setup (v : Video) (p : String) (files0 : List String)
    (hfile : v.originalFile = some p) :
    ∃ st, setup_video_processing (initState v files0)
        = .ok (st, p, "media/hls/" ++ toString v.id ++ "/") ∧
      st.video.processing_status = .processing ∧
      st.video.processing_progress = 0 ∧
      st.video.hls_directory = some ("media/hls/" ++ toString v.id ++ "/") ∧
      st.dirs = ["media/hls/" ++ toString v.id ++ "/"] ∧
      st.files = files0 ∧
      st.saves.map Video.processing_status = [.processing, .processing] ∧
      st.saves.map Video.processing_progress = [0, 0] ∧
      st.resAttempted = [] ∧ st.resWritten = [] := by
  simp only [setup_video_processing, initState, save, setVideo, hfile]
  exact ⟨_, rfl, rfl, rfl, rfl, rfl, rfl, rfl, rfl, rfl, rfl⟩

/-- Witness for C8 at the concrete demo record. -/
theorem c8_amended_setup_w :
    ∃ st, setup_video_processing (initState demoVideo [])
        = .ok (st, "media/videos/original/demo.mp4", "media/hls/" ++ toString demoVideo.id ++ "/") ∧
      st.video.processing_status = .processing ∧
      st.video.processing_progress = 0 ∧
      st.video.hls_directory = some ("media/hls/" ++ toString demoVideo.id ++ "/") ∧
      st.dirs = ["media/hls/" ++ toString demoVideo.id ++ "/"] ∧
      st.files = [] ∧
      st.saves.map Video.processing_status = [.processing, .processing] ∧
      st.saves.map Video.processing_progress = [0, 0] ∧
      st.resAttempted = [] ∧ st.resWritten = [] :=
  c8_amended_setup demoVideo "media/videos/original/demo.mp4" [] rfl

/-- Helper lemma: the record lookup commutes with rewriting every record's
hls_directory field. -/
theorem findVideo_setHls (g : Video → Option String) (db : List Video) (i : Nat) :
    findVideo (setHls g db) i
      = (findVideo db i).map (fun v => { v with hls_directory := g v }) := by
  induction db with
  | nil => rfl
  | cons v rest ih =>
    by_cases h : v.id = i <;> simp [findVideo, setHls, h] <;>
      simpa [setHls] using ih

/-- C9: both streaming views compute the on-disk path solely from the video id
and the resolution (media/hls/id/resolution/...): their responses are
invariant under arbitrary rewriting of every record's hls_directory field, and
a found record whose hls_directory is empty is still served from the
id-derived manifest path. -/
theorem c9_views_ignore_hls_directory (db : List Video) (fs : Fs) (i : Nat) (res seg : String)
    (g : Video → Option String) :
    hlsManifestGet (setHls g db) fs i res = hlsManifestGet db fs i res ∧
    hlsSegmentGet (setHls g db) fs i res seg = hlsSegmentGet db fs i res seg ∧
    (∀ v, findVideo db i = some v → v.hls_directory = none → res ∈ ALLOWED_RESOLUTIONS →
       fs.pathExists (manifestPath v.id res) = true →
       hlsManifestGet db fs i res = .raw 200 "application/vnd.apple.mpegurl"
         (fs.textContent (manifestPath v.id res))) := by
  refine ⟨?_, ?_, ?_⟩
  · rcases h : findVideo db i with _ | v <;>
      simp [hlsManifestGet, findVideo_setHls, h]
  · rcases h : findVideo db i with _ | v <;>
      simp [hlsSegmentGet, findVideo_setHls, h]
  · intro v h hnone hres hex
    simp [hlsManifestGet, h, hres, hex]

/-- Witness for C9: rewriting the demo record's hls_directory to an unrelated
path leaves the manifest response unchanged, and the record with empty
hls_directory is served from the id-derived path. -/
theorem c9_views_ignore_hls_directory_w :
    hlsManifestGet (setHls (fun _ => some "somewhere/else/") [demoVideo]) fullFs 1 "720p"
      = hlsManifestGet [demoVideo] fullFs 1 "720p" ∧
    hlsManifestGet [demoVideo] fullFs 1 "720p"
      = .raw 200 "application/vnd.apple.mpegurl" "#EXTM3U" := by
  refine ⟨(c9_views_ignore_hls_directory [demoVideo] fullFs 1 "720p" "000.ts"
    (fun _ => some "somewhere/else/")).1, ?_⟩
  have h := (c9_views_ignore_hls_directory [demoVideo] fullFs 1 "720p" "000.ts"
    (fun _ => some "somewhere/else/")).2.2 demoVideo rfl rfl (by decide) rfl
  simpa [fullFs] using h

/-- C10: when the record's hls_directory is unset or empty, the cleanup
handler's second phase attempts removal of the standard-pattern directory
media/hls/id/ instead of skipping HLS cleanup (its outcome is never the
skipped-phase marker). -/
theorem c10_cleanup_fallback (d : DiskState) (v : Video)
    (h : strTruthy v.hls_directory = false) :
    (auto_delete_file_on_delete d v).get? 1
      = some (.hlsDir, rmtreeAttempt d ("media/hls/" ++ toString v.id ++ "/")) ∧
    rmtreeAttempt d ("media/hls/" ++ toString v.id ++ "/") ≠ .fieldUnset := by
  constructor
  · simp [auto_delete_file_on_delete, h]
  · by_cases hx : d.pathExists ("media/hls/" ++ toString v.id ++ "/") <;>
      by_cases hr : d.rmtreeRaises ("media/hls/" ++ toString v.id ++ "/") <;>
        simp [rmtreeAttempt, hx, hr]

/-- Witness for C10 at the demo record, whose hls_directory is unset. -/
theorem c10_cleanup_fallback_w :
    (auto_delete_file_on_delete allMissingDisk demoVideo).get? 1
      = some (.hlsDir, rmtreeAttempt allMissingDisk ("media/hls/" ++ toString demoVideo.id ++ "/")) ∧
    rmtreeAttempt allMissingDisk ("media/hls/" ++ toString demoVideo.id ++ "/") ≠ .fieldUnset :=
  c10_cleanup_fallback allMissingDisk demoVideo rfl

end Videoflix
